import Mathlib

/-!
# ArUco navigator: guidance logic of `cmd/main.go`

A shallow embedding of the original logic of the program: the marker
centroid (`getCenterMarker`), the frame centre (`getCenterImg`), the
direction set built in the main loop, the status text chosen for a frame and
`getMapKeys`.

Modelling decisions.
* `float32` coordinates are exact rationals (`ℚ`): sums, the division by `4`
  or `2`, the subtraction and the comparisons are those of the source, without
  rounding. The conversion `float32(n)` of an `int` does round: to the nearest
  number with a 24-bit significand, ties to even (`float32`). Halving such a
  number is exact.
* `map[string]struct{}` is the list of its keys, without duplicates. Go leaves
  the order of `range` over a map unspecified; the order is an explicit
  argument `order : Nat` that selects one of the permutations of the keys.
* `fmt.Sprintf` with verbs `%s` and `%d` is string concatenation, `%d` of an
  `int` being its decimal representation.
* One iteration of the `for` loop, after a frame has been read, is `loopBody`:
  it takes what the detector returned (`corners`, `ids`) and the frame, and
  returns what the iteration draws. Indexing `corners[0]` on an empty slice is
  a run-time panic in Go, `none` here.
-/

namespace ArucoNavigator

/-! ## Constants (`const ( ... )`) -/

def threshold : ℚ := 10
def maxColor : Nat := 255
def center : String := "Centered"
def moveCamera : String := "Move camera: "
def markerID : String := "Marker ID: "
def left : String := "left"
def right : String := "right"
def up : String := "up"
def down : String := "down"
def pointRadius : Nat := 8
def pointThickness : Nat := 4
def lineThickness : Nat := 4
def leftUpPtX : Int := 10
def leftUpPtY : Int := 50

/-! ## Data -/

/-- The type `gocv.Point2f`: a pair of `float32` coordinates. -/
structure Point2f where
  X : ℚ
  Y : ℚ
deriving DecidableEq

/-- The part of `gocv.Mat` the program reads: `Cols()` and `Rows()`. -/
structure Mat where
  cols : Int
  rows : Int
deriving DecidableEq

/-- The type `color.RGBA`; fields left out of a literal are zero. -/
structure RGBA where
  R : Nat
  G : Nat
  B : Nat
  A : Nat
deriving DecidableEq

/-- The type `image.Point`. -/
structure Pt where
  X : Int
  Y : Int
deriving DecidableEq

def textColor : RGBA := ⟨0, maxColor, 0, 0⟩
def errorColor : RGBA := ⟨maxColor, 0, 0, 0⟩
def centerColor : RGBA := ⟨0, maxColor, maxColor, 0⟩
def markerColor : RGBA := ⟨maxColor, 0, 0, 0⟩
def lineColor : RGBA := ⟨maxColor, maxColor, 0, 0⟩

/-! ## Go primitives -/

/-- Assignment `m[k] = struct{}{}` on a `map[string]struct{}` held as its key list. -/
def mapSet (m : List String) (k : String) : List String :=
  if k ∈ m then m else m ++ [k]

/-- The order in which `for k := range m` visits the keys: one of the
permutations of the keys, selected by `order`. -/
def rangeOrder (order : Nat) (m : List String) : List String :=
  (m.permutations).getD (order % (m.permutations).length) m

/-- Conversion `float32(n)` of an `int`: integers of magnitude at most `2 ^ 24`
are kept; a larger one is rounded to the nearest multiple of the spacing
`2 ^ (log2 |n| - 23)` of the floats around it, a tie going to the even
multiple. A Go `int` has at most 64 bits, far below the largest `float32`, so
the conversion never overflows. -/
def float32 (n : Int) : ℚ :=
  let a := n.natAbs
  if a ≤ 2 ^ 24 then (n : ℚ)
  else
    let ulp := 2 ^ (Nat.log2 a - 23)
    let q := a / ulp
    let r := a % ulp
    let q := if 2 * r > ulp ∨ (2 * r = ulp ∧ q % 2 = 1) then q + 1 else q
    if n < 0 then -((q * ulp : Nat) : ℚ) else ((q * ulp : Nat) : ℚ)

/-- Conversion `int(f)` of a float: truncation toward zero. -/
def toInt (q : ℚ) : Int := Int.tdiv q.num q.den

/-- The function `strings.Join`. -/
def join (elems : List String) (sep : String) : String := sep.intercalate elems

/-- The verb `%d` applied to an `int`. -/
def fmtInt (i : Int) : String := toString i

/-! ## Functions of `main.go` -/

/-- Function `getMapKeys`: the keys of the map in iteration order. -/
def getMapKeys (order : Nat) (m : List String) : List String :=
  (rangeOrder order m).foldl (fun keys k => keys ++ [k]) []

/-- Function `getCenterMarker`: sums the coordinates of the corners in a loop starting
from the zero values of the named results, then divides each sum by `4`. -/
def getCenterMarker (markerCorners : List Point2f) : ℚ × ℚ :=
  let s := markerCorners.foldl (fun (acc : ℚ × ℚ) corner => (acc.1 + corner.X, acc.2 + corner.Y)) (0, 0)
  (s.1 / 4, s.2 / 4)

/-- Function `getCenterImg`: half the width and half the height, each converted
to `float32` before the division. -/
def getCenterImg (img : Mat) : ℚ × ℚ :=
  let imgWidth := img.cols
  let imgHeight := img.rows
  (float32 imgWidth / 2, float32 imgHeight / 2)

/-- The direction block of `main` (lines 86 and 94-108): the map `directions`
after the two `if / else if` statements. -/
def computeDirections (markerCenterX markerCenterY imgCenterX imgCenterY : ℚ) : List String :=
  let directions : List String := []
  let dx := markerCenterX - imgCenterX
  let dy := markerCenterY - imgCenterY
  let directions :=
    if dx < -threshold then mapSet directions right
    else if dx > threshold then mapSet directions left
    else directions
  let directions :=
    if dy < -threshold then mapSet directions down
    else if dy > threshold then mapSet directions up
    else directions
  directions

/-- What one iteration of the loop draws on the frame. -/
structure FrameOutput where
  /-- the map `directions` at the end of the iteration -/
  directions : List String
  /-- centre of the first `gocv.Circle` (image centre), when drawn -/
  imgCenterPt : Option Pt
  /-- centre of the second `gocv.Circle` (marker centre), when drawn -/
  markerCenterPt : Option Pt
  /-- end points of `gocv.Line`, when drawn -/
  linePts : Option (Pt × Pt)
  /-- arguments of `gocv.ArucoDrawDetectedMarkers`, when called -/
  drawnMarkers : Option (List (List Point2f) × List Int)
  /-- text given to `gocv.PutText` -/
  statusText : String
  /-- colour given to `gocv.PutText` -/
  statusColor : RGBA
  /-- origin given to `gocv.PutText` -/
  textOrg : Pt
deriving DecidableEq

/-- The body of the `for` loop of `main` after `DetectMarkers` returned
`corners` and `ids` for the frame `img`. -/
def loopBody (order : Nat) (corners : List (List Point2f)) (ids : List Int) (img : Mat) :
    Option FrameOutput :=
  let directions : List String := []
  match ids with
  | id0 :: _ =>
    match corners with
    | [] => none
    | corners0 :: _ =>
      let (markerCenterX, markerCenterY) := getCenterMarker corners0
      let (imgCenterX, imgCenterY) := getCenterImg img
      let directions := computeDirections markerCenterX markerCenterY imgCenterX imgCenterY
      let imgPt : Pt := ⟨toInt imgCenterX, toInt imgCenterY⟩
      let markerPt : Pt := ⟨toInt markerCenterX, toInt markerCenterY⟩
      let statusText := center ++ ". " ++ markerID ++ fmtInt id0
      let statusColor := textColor
      let (statusText, statusColor) :=
        if directions.length > 0 then
          (markerID ++ fmtInt id0 ++ ". " ++ moveCamera ++ " " ++ join (getMapKeys order directions) " + ",
            errorColor)
        else (statusText, statusColor)
      some
        { directions := directions
          imgCenterPt := some imgPt
          markerCenterPt := some markerPt
          linePts := some (imgPt, markerPt)
          drawnMarkers := some (corners, ids)
          statusText := statusText
          statusColor := statusColor
          textOrg := ⟨leftUpPtX, leftUpPtY⟩ }
  | [] =>
    some
      { directions := directions
        imgCenterPt := none
        markerCenterPt := none
        linePts := none
        drawnMarkers := none
        statusText := "No markers detected"
        statusColor := errorColor
        textOrg := ⟨leftUpPtX, leftUpPtY⟩ }

/-! ## Specification-side definition -/

/-- The arithmetic mean of a list of numbers, as the specification words it:
the sum divided by the number of elements. -/
def arithmeticMean (xs : List ℚ) : ℚ := xs.sum / (xs.length : ℚ)

/-! ## Auxiliary lemmas -/

theorem float32_exact (n : Int) (h : n.natAbs ≤ 2 ^ 24) : float32 n = (n : ℚ) := by
  simp only [float32, if_pos h]

theorem getCenterImg_1280_720 : getCenterImg ⟨1280, 720⟩ = (640, 360) := by
  simp only [getCenterImg]
  rw [float32_exact 1280 (by decide), float32_exact 720 (by decide)]
  norm_num

theorem log2_16777217 : Nat.log2 16777217 = 24 := by
  have h1 : 24 ≤ Nat.log2 16777217 := (Nat.le_log2 (by norm_num)).2 (by norm_num)
  have h2 : Nat.log2 16777217 < 25 := (Nat.log2_lt (by norm_num)).2 (by norm_num)
  omega

theorem float32_16777217 : float32 16777217 = 16777216 := by
  simp only [float32]
  have ha : Int.natAbs 16777217 = 16777217 := rfl
  rw [ha, log2_16777217]
  norm_num

theorem permutations_right_down :
    List.permutations [right, down] = [[right, down], [down, right]] := by
  simp [List.permutations, List.permutationsAux_cons, List.permutationsAux_nil,
    List.permutationsAux2]

theorem getMapKeys_nil (order : Nat) : getMapKeys order [] = [] := by
  simp [getMapKeys, rangeOrder]

theorem rangeOrder_perm (order : Nat) (m : List String) : (rangeOrder order m).Perm m := by
  unfold rangeOrder
  have hpos : 0 < (m.permutations).length := by
    rw [List.length_permutations]; exact Nat.factorial_pos _
  have hlt : order % (m.permutations).length < (m.permutations).length := Nat.mod_lt _ hpos
  rw [List.getD_eq_getElem _ _ hlt]
  exact List.mem_permutations.mp (List.getElem_mem _)

theorem foldl_snoc_keys (l acc : List String) :
    l.foldl (fun keys k => keys ++ [k]) acc = acc ++ l := by
  induction l generalizing acc with
  | nil => simp
  | cons a t ih => simp [ih]

theorem getMapKeys_perm (order : Nat) (m : List String) : (getMapKeys order m).Perm m := by
  unfold getMapKeys
  rw [foldl_snoc_keys]
  simpa using rangeOrder_perm order m

theorem getMapKeys_singleton (order : Nat) (k : String) : getMapKeys order [k] = [k] :=
  List.perm_singleton.mp (getMapKeys_perm order [k])

theorem computeDirections_eq (mx my cx cy : ℚ) :
    computeDirections mx my cx cy =
      (if mx - cx < -10 then [right] else if mx - cx > 10 then [left] else []) ++
      (if my - cy < -10 then [down] else if my - cy > 10 then [up] else []) := by
  unfold computeDirections threshold
  by_cases h1 : mx - cx < -10 <;> by_cases h2 : mx - cx > 10 <;>
    by_cases h3 : my - cy < -10 <;> by_cases h4 : my - cy > 10 <;>
    simp only [h1, h2, h3, h4, if_true, if_false] <;> decide

theorem foldl_corner_sums (cs : List Point2f) (a b : ℚ) :
    cs.foldl (fun (acc : ℚ × ℚ) corner => (acc.1 + corner.X, acc.2 + corner.Y)) (a, b) =
      (a + (cs.map (fun c => c.X)).sum, b + (cs.map (fun c => c.Y)).sum) := by
  induction cs generalizing a b with
  | nil => simp
  | cons c t ih => simp [ih, add_assoc]

theorem getCenterMarker_sums (cs : List Point2f) :
    getCenterMarker cs =
      ((cs.map (fun c => c.X)).sum / 4, (cs.map (fun c => c.Y)).sum / 4) := by
  simp only [getCenterMarker, foldl_corner_sums, zero_add]

/-- The marker branch of the loop body, with the tuple assignments resolved. -/
theorem loopBody_marker (order : Nat) (c : List Point2f) (cs : List (List Point2f))
    (i : Int) (is : List Int) (img : Mat) :
    loopBody order (c :: cs) (i :: is) img =
      some
        { directions := computeDirections (getCenterMarker c).1 (getCenterMarker c).2
            (getCenterImg img).1 (getCenterImg img).2
          imgCenterPt := some ⟨toInt (getCenterImg img).1, toInt (getCenterImg img).2⟩
          markerCenterPt := some ⟨toInt (getCenterMarker c).1, toInt (getCenterMarker c).2⟩
          linePts := some (⟨toInt (getCenterImg img).1, toInt (getCenterImg img).2⟩,
            ⟨toInt (getCenterMarker c).1, toInt (getCenterMarker c).2⟩)
          drawnMarkers := some (c :: cs, i :: is)
          statusText :=
            if (computeDirections (getCenterMarker c).1 (getCenterMarker c).2
                (getCenterImg img).1 (getCenterImg img).2).length > 0 then
              markerID ++ fmtInt i ++ ". " ++ moveCamera ++ " " ++
                join (getMapKeys order (computeDirections (getCenterMarker c).1
                  (getCenterMarker c).2 (getCenterImg img).1 (getCenterImg img).2)) " + "
            else center ++ ". " ++ markerID ++ fmtInt i
          statusColor :=
            if (computeDirections (getCenterMarker c).1 (getCenterMarker c).2
                (getCenterImg img).1 (getCenterImg img).2).length > 0 then errorColor
            else textColor
          textOrg := ⟨leftUpPtX, leftUpPtY⟩ } := by
  simp only [loopBody]
  split_ifs <;> rfl

theorem string_append_left_ne (p a b : String) (h : a ≠ b) : p ++ a ≠ p ++ b := by
  intro e
  apply h
  have hd := congrArg String.data e
  simp only [String.data_append, List.append_cancel_left_eq] at hd
  exact String.ext hd

/-! ## Claims -/

/-- C1: for every marker centre and frame centre, with `dx` and `dy` the
differences marker minus frame and the threshold `10`, the direction set holds
`right` exactly when `dx < -10`, `left` exactly when `dx > 10`, `down` exactly
when `dy < -10` and `up` exactly when `dy > 10`; and the direction set of a
loop iteration with a detected marker is this set for the marker centroid and
the frame centre. -/
theorem directions_iff_offsets :
    (∀ markerCenterX markerCenterY imgCenterX imgCenterY : ℚ,
      (right ∈ computeDirections markerCenterX markerCenterY imgCenterX imgCenterY ↔
        markerCenterX - imgCenterX < -10) ∧
      (left ∈ computeDirections markerCenterX markerCenterY imgCenterX imgCenterY ↔
        markerCenterX - imgCenterX > 10) ∧
      (down ∈ computeDirections markerCenterX markerCenterY imgCenterX imgCenterY ↔
        markerCenterY - imgCenterY < -10) ∧
      (up ∈ computeDirections markerCenterX markerCenterY imgCenterX imgCenterY ↔
        markerCenterY - imgCenterY > 10)) ∧
    (∀ (order : Nat) (c : List Point2f) (cs : List (List Point2f)) (i : Int) (is : List Int)
        (img : Mat),
      ∃ r, loopBody order (c :: cs) (i :: is) img = some r ∧
        r.directions = computeDirections (getCenterMarker c).1 (getCenterMarker c).2
          (getCenterImg img).1 (getCenterImg img).2) := by
  constructor
  · intro mx my cx cy
    rw [computeDirections_eq]
    refine ⟨?_, ?_, ?_, ?_⟩ <;> split_ifs <;> simp [right, left, up, down] <;> linarith
  · intro order c cs i is img
    exact ⟨_, loopBody_marker order c cs i is img, rfl⟩

/-- C2 (evaluation of the code): for the marker centroid `(600, 360)` and the
frame centre `(640, 360)` the direction set is `right` alone, the status colour
is the error colour, and the status text is
`Marker ID: <id>. Move camera:` followed by two spaces and `right`, which is
not the text with a single space. -/
theorem move_right_text_has_two_spaces (order : Nat) (id : Int) :
    getCenterMarker [⟨560, 320⟩, ⟨640, 320⟩, ⟨640, 400⟩, ⟨560, 400⟩] = (600, 360) ∧
    getCenterImg ⟨1280, 720⟩ = (640, 360) ∧
    ∃ r, loopBody order [[⟨560, 320⟩, ⟨640, 320⟩, ⟨640, 400⟩, ⟨560, 400⟩]] [id] ⟨1280, 720⟩ = some r ∧
      r.directions = [right] ∧
      r.statusColor = errorColor ∧
      r.statusText = "Marker ID: " ++ toString id ++ ". Move camera:  right" ∧
      r.statusText ≠ "Marker ID: " ++ toString id ++ ". Move camera: right" := by
  have hm : getCenterMarker [⟨560, 320⟩, ⟨640, 320⟩, ⟨640, 400⟩, ⟨560, 400⟩] = (600, 360) := by
    rw [getCenterMarker_sums]; norm_num
  have hi : getCenterImg ⟨1280, 720⟩ = (640, 360) := getCenterImg_1280_720
  have hd : computeDirections 600 360 640 360 = [right] := by
    rw [computeDirections_eq]; norm_num
  refine ⟨hm, hi, _, loopBody_marker order _ [] id [] _, ?_⟩
  simp only [hm, hi, hd, getMapKeys_singleton]
  have ht : markerID ++ fmtInt id ++ ". " ++ moveCamera ++ " " ++ join [right] " + " =
      "Marker ID: " ++ toString id ++ ". Move camera:  right" := by
    simp only [String.append_assoc]; rfl
  refine ⟨trivial, by decide, ?_, ?_⟩
  · simpa using ht
  · have : (if [right].length > 0 then
        markerID ++ fmtInt id ++ ". " ++ moveCamera ++ " " ++ join [right] " + "
        else center ++ ". " ++ markerID ++ fmtInt id) =
        "Marker ID: " ++ toString id ++ ". Move camera:  right" := by simpa using ht
    rw [this, String.append_assoc, String.append_assoc]
    exact string_append_left_ne _ _ _ (string_append_left_ne _ _ _ (by decide))


/-- C3: for every marker centre and frame centre the direction set never holds
both `left` and `right`, never both `up` and `down`, has no repeated key, has
at most two elements, at most one of them horizontal and at most one vertical. -/
theorem directions_exclusive (markerCenterX markerCenterY imgCenterX imgCenterY : ℚ) :
    ¬ (left ∈ computeDirections markerCenterX markerCenterY imgCenterX imgCenterY ∧
        right ∈ computeDirections markerCenterX markerCenterY imgCenterX imgCenterY) ∧
    ¬ (up ∈ computeDirections markerCenterX markerCenterY imgCenterX imgCenterY ∧
        down ∈ computeDirections markerCenterX markerCenterY imgCenterX imgCenterY) ∧
    (computeDirections markerCenterX markerCenterY imgCenterX imgCenterY).Nodup ∧
    (computeDirections markerCenterX markerCenterY imgCenterX imgCenterY).length ≤ 2 ∧
    ((computeDirections markerCenterX markerCenterY imgCenterX imgCenterY).filter
        (fun d => d = left ∨ d = right)).length ≤ 1 ∧
    ((computeDirections markerCenterX markerCenterY imgCenterX imgCenterY).filter
        (fun d => d = up ∨ d = down)).length ≤ 1 := by
  rw [computeDirections_eq]
  split_ifs <;> decide

/-- C4: with threshold `10` the direction set is empty exactly when
`-10 ≤ dx ≤ 10` and `-10 ≤ dy ≤ 10`; at `dx = 10` and at `dx = -10` there is no
horizontal direction, at `dx = 11` the only horizontal direction is `left`, at
`dx = -11` it is `right`. -/
theorem centered_iff_within_threshold :
    (∀ markerCenterX markerCenterY imgCenterX imgCenterY : ℚ,
      computeDirections markerCenterX markerCenterY imgCenterX imgCenterY = [] ↔
        (-10 ≤ markerCenterX - imgCenterX ∧ markerCenterX - imgCenterX ≤ 10 ∧
          -10 ≤ markerCenterY - imgCenterY ∧ markerCenterY - imgCenterY ≤ 10)) ∧
    (∀ markerCenterY imgCenterX imgCenterY : ℚ,
      (computeDirections (imgCenterX + 10) markerCenterY imgCenterX imgCenterY).filter
          (fun d => d = left ∨ d = right) = [] ∧
      (computeDirections (imgCenterX - 10) markerCenterY imgCenterX imgCenterY).filter
          (fun d => d = left ∨ d = right) = [] ∧
      (computeDirections (imgCenterX + 11) markerCenterY imgCenterX imgCenterY).filter
          (fun d => d = left ∨ d = right) = [left] ∧
      (computeDirections (imgCenterX - 11) markerCenterY imgCenterX imgCenterY).filter
          (fun d => d = left ∨ d = right) = [right]) := by
  constructor
  · intro mx my cx cy
    rw [computeDirections_eq]
    constructor
    · intro h
      split_ifs at h <;> simp at h
      refine ⟨?_, ?_, ?_, ?_⟩ <;> linarith
    · rintro ⟨h1, h2, h3, h4⟩
      rw [if_neg (not_lt.mpr h1), if_neg (not_lt.mpr h2), if_neg (not_lt.mpr h3),
        if_neg (not_lt.mpr h4)]
      rfl
  · intro my cx cy
    have e1 : cx + 10 - cx = 10 := by ring
    have e2 : cx - 10 - cx = -10 := by ring
    have e3 : cx + 11 - cx = 11 := by ring
    have e4 : cx - 11 - cx = -11 := by ring
    have a1 : ¬ ((10 : ℚ) < -10) := by norm_num
    have a2 : ¬ ((10 : ℚ) > 10) := by norm_num
    have a3 : ¬ ((-10 : ℚ) < -10) := by norm_num
    have a4 : ¬ ((-10 : ℚ) > 10) := by norm_num
    have a5 : ¬ ((11 : ℚ) < -10) := by norm_num
    have a6 : (11 : ℚ) > 10 := by norm_num
    have a7 : (-11 : ℚ) < -10 := by norm_num
    simp only [computeDirections_eq, e1, e2, e3, e4, a1, a2, a3, a4, a5, a6, a7, if_true,
      if_false]
    refine ⟨?_, ?_, ?_, ?_⟩ <;> split_ifs <;> decide

/-- C5: when a marker is detected and the direction set computed for it is
empty, the status text is `Centered. Marker ID: <id>` and the status colour is
the OK text colour, which is not the error colour. -/
theorem centered_status (order : Nat) (c : List Point2f) (cs : List (List Point2f))
    (i : Int) (is : List Int) (img : Mat)
    (h : computeDirections (getCenterMarker c).1 (getCenterMarker c).2
      (getCenterImg img).1 (getCenterImg img).2 = []) :
    ∃ r, loopBody order (c :: cs) (i :: is) img = some r ∧
      r.directions = [] ∧
      r.statusText = "Centered. Marker ID: " ++ toString i ∧
      r.statusColor = textColor ∧
      r.statusColor ≠ errorColor := by
  refine ⟨_, loopBody_marker order c cs i is img, ?_⟩
  simp only [h]
  refine ⟨trivial, ?_, ?_, ?_⟩
  · rfl
  · rfl
  · decide

/-- Witness of C5: corners with centroid `(650, 360)` in a `1280 x 720` frame,
centre `(640, 360)`, give `dx = 10`, an empty direction set and the text
`Centered. Marker ID: 7`. -/
theorem centered_status_witness :
    computeDirections 650 360 640 360 = [] ∧
    getCenterMarker [⟨640, 350⟩, ⟨660, 350⟩, ⟨660, 370⟩, ⟨640, 370⟩] = (650, 360) ∧
    getCenterImg ⟨1280, 720⟩ = (640, 360) ∧
    ∃ r, loopBody 0 [[⟨640, 350⟩, ⟨660, 350⟩, ⟨660, 370⟩, ⟨640, 370⟩]] [7] ⟨1280, 720⟩ = some r ∧
      r.directions = [] ∧
      r.statusText = "Centered. Marker ID: " ++ toString (7 : Int) ∧
      r.statusColor = textColor ∧
      r.statusColor ≠ errorColor := by
  have hm : getCenterMarker [⟨640, 350⟩, ⟨660, 350⟩, ⟨660, 370⟩, ⟨640, 370⟩] = (650, 360) := by
    rw [getCenterMarker_sums]; norm_num
  have hi : getCenterImg ⟨1280, 720⟩ = (640, 360) := getCenterImg_1280_720
  have hd : computeDirections 650 360 640 360 = [] := by
    rw [computeDirections_eq]; norm_num
  exact ⟨hd, hm, hi, centered_status 0 _ [] 7 [] _ (by rw [hm, hi]; exact hd)⟩

/-- C6: when the detector returns no marker id, whatever the corners and the
frame, the status text is `No markers detected` in the error colour, the
direction set is empty and no centre, centroid or line is drawn. -/
theorem no_markers_status (order : Nat) (corners : List (List Point2f)) (img : Mat) :
    ∃ r, loopBody order corners [] img = some r ∧
      r.statusText = "No markers detected" ∧
      r.statusColor = errorColor ∧
      r.directions = [] ∧
      r.imgCenterPt = none ∧ r.markerCenterPt = none ∧ r.linePts = none ∧
      r.drawnMarkers = none :=
  ⟨_, rfl, rfl, rfl, rfl, rfl, rfl, rfl, rfl⟩

/-- C7: for every list of exactly four corners `getCenterMarker` returns the
arithmetic mean of the x coordinates and the arithmetic mean of the y
coordinates. -/
theorem getCenterMarker_four_is_mean (markerCorners : List Point2f)
    (h : markerCorners.length = 4) :
    getCenterMarker markerCorners =
      (arithmeticMean (markerCorners.map (fun c => c.X)),
        arithmeticMean (markerCorners.map (fun c => c.Y))) := by
  rw [getCenterMarker_sums]
  simp [arithmeticMean, h]

/-- Witness of C7: the corners `(0,0), (10,0), (10,10), (0,10)` give `(5, 5)`. -/
theorem getCenterMarker_four_is_mean_witness :
    ([⟨0, 0⟩, ⟨10, 0⟩, ⟨10, 10⟩, ⟨0, 10⟩] : List Point2f).length = 4 ∧
    getCenterMarker [⟨0, 0⟩, ⟨10, 0⟩, ⟨10, 10⟩, ⟨0, 10⟩] = (5, 5) := by
  refine ⟨rfl, ?_⟩
  rw [getCenterMarker_four_is_mean [⟨0, 0⟩, ⟨10, 0⟩, ⟨10, 10⟩, ⟨0, 10⟩] rfl]
  norm_num [arithmeticMean]


/-- C8 as stated fails: at width `16777217 = 2 ^ 24 + 1` the conversion to
`float32` rounds to `16777216`, so `getCenterImg` returns the x coordinate
`8388608`, an integer, and not the half-integer `16777217 / 2`. -/
theorem getCenterImg_rounds_above_two_pow_24 :
    getCenterImg ⟨16777217, 720⟩ = (8388608, 360) ∧
    getCenterImg ⟨16777217, 720⟩ ≠ (((16777217 : Int) : ℚ) / 2, ((720 : Int) : ℚ) / 2) ∧
    2 * (getCenterImg ⟨16777217, 720⟩).1 ≠ ((16777217 : Int) : ℚ) := by
  have h : getCenterImg ⟨16777217, 720⟩ = (8388608, 360) := by
    simp only [getCenterImg]
    rw [float32_16777217, float32_exact 720 (by decide)]
    norm_num
  refine ⟨h, ?_, ?_⟩
  · rw [h]; norm_num
  · rw [h]; norm_num

/-- C8, amended: for every positive width and height not above
`2 ^ 24 = 16777216`, `getCenterImg` returns exactly half of each, without
truncation: doubling the result gives the dimension back and the coordinate is
the integer quotient plus half the remainder, so an odd dimension gives a
half-integer; `(1281, 721)` gives `(640.5, 360.5)`. -/
theorem getCenterImg_exact_half (width height : Int)
    (hw : 0 < width) (hw2 : width ≤ 16777216) (hh : 0 < height) (hh2 : height ≤ 16777216) :
    getCenterImg ⟨width, height⟩ = ((width : ℚ) / 2, (height : ℚ) / 2) ∧
    2 * (getCenterImg ⟨width, height⟩).1 = (width : ℚ) ∧
    2 * (getCenterImg ⟨width, height⟩).2 = (height : ℚ) ∧
    (getCenterImg ⟨width, height⟩).1 = ((width / 2 : Int) : ℚ) + ((width % 2 : Int) : ℚ) / 2 ∧
    (getCenterImg ⟨width, height⟩).2 = ((height / 2 : Int) : ℚ) + ((height % 2 : Int) : ℚ) / 2 ∧
    getCenterImg ⟨1281, 721⟩ = (640 + 1 / 2, 360 + 1 / 2) := by
  have ew : float32 width = (width : ℚ) := float32_exact width (by norm_num; omega)
  have eh : float32 height = (height : ℚ) := float32_exact height (by norm_num; omega)
  have hw3 : (width : ℚ) = (((width % 2 + 2 * (width / 2) : Int)) : ℚ) := by
    rw [Int.emod_add_ediv]
  have hh3 : (height : ℚ) = (((height % 2 + 2 * (height / 2) : Int)) : ℚ) := by
    rw [Int.emod_add_ediv]
  have e : getCenterImg ⟨width, height⟩ = ((width : ℚ) / 2, (height : ℚ) / 2) := by
    simp only [getCenterImg, ew, eh]
  refine ⟨e, ?_, ?_, ?_, ?_, ?_⟩
  · rw [e]; ring
  · rw [e]; ring
  · rw [e]; simp only []
    conv_lhs => rw [hw3]
    push_cast; ring
  · rw [e]; simp only []
    conv_lhs => rw [hh3]
    push_cast; ring
  · simp only [getCenterImg]
    rw [float32_exact 1281 (by decide), float32_exact 721 (by decide)]
    norm_num

/-- Witness of C8, amended: the frame `1280 x 720` is within the bound and its
centre is `(640, 360)`. -/
theorem getCenterImg_exact_half_witness :
    (0 : Int) < 1280 ∧ (1280 : Int) ≤ 16777216 ∧ (0 : Int) < 720 ∧ (720 : Int) ≤ 16777216 ∧
    getCenterImg ⟨1280, 720⟩ = (640, 360) := by
  refine ⟨by decide, by decide, by decide, by decide, ?_⟩
  rw [(getCenterImg_exact_half 1280 720 (by decide) (by decide) (by decide) (by decide)).1]
  norm_num

/-- C9 as stated fails: two detection results with the same first marker
(centroid `(20, 20)`, id `7`) and the same `1280 x 720` frame, one with a second
marker and one without, get different status texts when the map of the two
directions is ranged over in different orders. -/
theorem status_text_varies_with_map_order :
    ∃ r1 r2,
      loopBody 0 [[⟨0, 0⟩, ⟨40, 0⟩, ⟨40, 40⟩, ⟨0, 40⟩]] [7] ⟨1280, 720⟩ = some r1 ∧
      loopBody 1 [[⟨0, 0⟩, ⟨40, 0⟩, ⟨40, 40⟩, ⟨0, 40⟩], [⟨5, 5⟩, ⟨6, 5⟩, ⟨6, 6⟩, ⟨5, 6⟩]] [7, 8]
        ⟨1280, 720⟩ = some r2 ∧
      r1.directions = [right, down] ∧
      r2.directions = [right, down] ∧
      r1.statusText = "Marker ID: 7. Move camera:  right + down" ∧
      r2.statusText = "Marker ID: 7. Move camera:  down + right" ∧
      r1.statusText ≠ r2.statusText := by
  have hm : getCenterMarker [⟨0, 0⟩, ⟨40, 0⟩, ⟨40, 40⟩, ⟨0, 40⟩] = (20, 20) := by
    rw [getCenterMarker_sums]; norm_num
  have hd : computeDirections 20 20 640 360 = [right, down] := by
    rw [computeDirections_eq]; norm_num
  have k0 : getMapKeys 0 [right, down] = [right, down] := by
    simp [getMapKeys, rangeOrder, permutations_right_down]
  have k1 : getMapKeys 1 [right, down] = [down, right] := by
    simp [getMapKeys, rangeOrder, permutations_right_down]
  refine ⟨_, _, loopBody_marker 0 _ [] 7 [] _, loopBody_marker 1 _ _ 7 _ _, ?_⟩
  simp only [hm, getCenterImg_1280_720, hd, k0, k1]
  decide

/-- C9, amended: two detection results with the same first corner list, the same
first id and the same frame give the same direction set, status colour and the
same image-centre, marker-centre and line coordinates, whatever the remaining
markers and the map iteration orders are. Their status texts are the same
template filled with two orderings of that one direction set; they are equal
unless the set has two directions, and the second result ranged over in the
first order gives the first text. -/
theorem guidance_depends_on_first_marker (order1 order2 : Nat) (c : List Point2f) (i : Int)
    (cs1 cs2 : List (List Point2f)) (is1 is2 : List Int) (img : Mat) :
    ∃ r1 r2 keys1 keys2, loopBody order1 (c :: cs1) (i :: is1) img = some r1 ∧
      loopBody order2 (c :: cs2) (i :: is2) img = some r2 ∧
      r1.directions = r2.directions ∧
      r1.statusColor = r2.statusColor ∧
      r1.imgCenterPt = r2.imgCenterPt ∧
      r1.markerCenterPt = r2.markerCenterPt ∧
      r1.linePts = r2.linePts ∧
      keys1.Perm r1.directions ∧
      keys2.Perm r1.directions ∧
      r1.statusText =
        (if keys1.length > 0 then
          markerID ++ fmtInt i ++ ". " ++ moveCamera ++ " " ++ join keys1 " + "
        else center ++ ". " ++ markerID ++ fmtInt i) ∧
      r2.statusText =
        (if keys2.length > 0 then
          markerID ++ fmtInt i ++ ". " ++ moveCamera ++ " " ++ join keys2 " + "
        else center ++ ". " ++ markerID ++ fmtInt i) ∧
      (r1.statusText = r2.statusText ∨ r1.directions.length = 2) ∧
      (loopBody order1 (c :: cs2) (i :: is2) img).map (fun r => r.statusText) =
        some r1.statusText := by
  have hl : (computeDirections (getCenterMarker c).1 (getCenterMarker c).2
      (getCenterImg img).1 (getCenterImg img).2).length ≤ 2 := by
    rw [computeDirections_eq]; split_ifs <;> decide
  refine ⟨_, _, getMapKeys order1 _, getMapKeys order2 _,
    loopBody_marker order1 c cs1 i is1 img, loopBody_marker order2 c cs2 i is2 img,
    rfl, rfl, rfl, rfl, rfl, getMapKeys_perm order1 _, getMapKeys_perm order2 _, ?_, ?_, ?_, ?_⟩
  · simp only [(getMapKeys_perm order1 _).length_eq]
  · simp only [(getMapKeys_perm order2 _).length_eq]
  · generalize computeDirections (getCenterMarker c).1 (getCenterMarker c).2
      (getCenterImg img).1 (getCenterImg img).2 = d at hl
    match d, hl with
    | [], _ => left; simp only [getMapKeys_nil]
    | [a], _ => left; simp only [getMapKeys_singleton]
    | [a, b], _ => right; rfl
    | _ :: _ :: _ :: _, h => simp at h
  · rw [loopBody_marker]; rfl

/-- C10: `getCenterMarker` is defined on corner lists of every length and always
divides the coordinate sums by `4`: the empty list gives `(0, 0)`, and for the
two corners `(4, 4), (8, 8)` the result `(3, 3)` is not their arithmetic mean
`(6, 6)`. -/
theorem getCenterMarker_divides_by_four :
    (∀ markerCorners : List Point2f,
      getCenterMarker markerCorners =
        ((markerCorners.map (fun c => c.X)).sum / 4,
          (markerCorners.map (fun c => c.Y)).sum / 4)) ∧
    getCenterMarker [] = (0, 0) ∧
    getCenterMarker [⟨4, 4⟩, ⟨8, 8⟩] = (3, 3) ∧
    (arithmeticMean [4, 8], arithmeticMean [4, 8]) = ((6 : ℚ), (6 : ℚ)) ∧
    (∃ markerCorners : List Point2f, markerCorners.length ≠ 4 ∧
      getCenterMarker markerCorners ≠
        (arithmeticMean (markerCorners.map (fun c => c.X)),
          arithmeticMean (markerCorners.map (fun c => c.Y)))) := by
  refine ⟨getCenterMarker_sums, ?_, ?_, ?_, ⟨[⟨4, 4⟩, ⟨8, 8⟩], by decide, ?_⟩⟩
  · rw [getCenterMarker_sums]; norm_num
  · rw [getCenterMarker_sums]; norm_num
  · norm_num [arithmeticMean]
  · rw [getCenterMarker_sums]; norm_num [arithmeticMean]

end ArucoNavigator
